import Mathlib

/-!
Verification of the purchase-pattern backend (`src/backend`).

Shallow embedding conventions:
* SQLAlchemy rows become Lean structures; the database session becomes an
  explicit `DB` state record threaded through the operations.
* Python `float` is modelled as `ℚ` (exact arithmetic); `datetime` values are
  modelled at day granularity as `ℤ` day numbers, so `(d1 - d2).days` is the
  exact integer difference.  The spec's own examples are phrased in whole days.
* `Optional[T]` becomes `Option T`; a SQL `NULL` is `none`.
* Python truthiness tests (`if price:`, `if product.typical_price:`,
  `if expected_days`) are modelled explicitly: `none` and `0` are falsy.
* `id` is the primary key of every table (`models.py`), so at most one row can
  match a lookup by id; row mutation is therefore modelled as a by-key map
  over the table.
-/

namespace Predicto

abbrev Day := ℤ

/-- Row of `products` (`models.py`, class `Product`). -/
structure Product where
  id : String
  name : String
  category : String
  typical_price : Option ℚ
  purchase_count : ℤ
  last_purchased_date : Option Day
  average_days_between_purchases : Option ℚ
deriving Repr, DecidableEq

/-- Row of `purchase_history` (`models.py`, class `PurchaseHistory`). -/
structure PurchaseEvent where
  product_id : String
  purchase_date : Day
  price : Option ℚ
  quantity : ℚ
  store_name : Option String
deriving Repr, DecidableEq

/-- Row of `product_associations` as `models.py` declares it: the score and
timestamp columns are named `confidence_score` and `last_updated`.  (The
attributes `confidence` and `last_purchased_together` that `crud.py` refers
to do not exist on this class; see `recordAssocCanonical` and
`get_associated_products` for the consequences.) -/
structure ProductAssociation where
  product_a_id : String
  product_b_id : String
  co_purchase_count : ℤ
  confidence_score : ℚ
  last_updated : Day
deriving Repr, DecidableEq

/-- The persistent state: the three tables used by the purchase engine. -/
structure DB where
  products : List Product
  history : List PurchaseEvent
  assocs : List ProductAssociation
deriving Repr, DecidableEq

def emptyDB : DB := ⟨[], [], []⟩

/-- Python truthiness of an optional float: `None` and `0.0` are falsy. -/
def truthyQ : Option ℚ → Bool
  | none => false
  | some q => decide (q ≠ 0)

/-- ASCII lower-casing, modelling `str.lower()` on the identifiers involved
(only ASCII letters occur in the sentinel comparison with `'unknown'`). -/
def lowerAscii (s : String) : String := ⟨s.data.map Char.toLower⟩

/-- `crud.get_product`: lookup by primary key. -/
def get_product (s : DB) (product_id : String) : Option Product :=
  s.products.find? (fun p => p.id == product_id)

/-- `crud.get_product_by_name`: case-insensitive exact-name lookup. -/
def get_product_by_name (s : DB) (name : String) : Option Product :=
  s.products.find? (fun p => lowerAscii p.name == lowerAscii name)

/-- `crud.create_product`: inserts a product with `purchase_count=0`.
The column defaults of `models.py` fill `last_purchased_date` with the
insertion time and leave `average_days_between_purchases` NULL. -/
def create_product (s : DB) (id name category : String)
    (typical_price : Option ℚ) (now : Day) : DB :=
  { s with products := s.products ++
      [⟨id, name, category, typical_price, 0, some now, none⟩] }

/-- `crud.delete_product`: delete by primary key. -/
def delete_product (s : DB) (product_id : String) : DB :=
  { s with products := s.products.filter (fun p => ¬(p.id == product_id)) }

/-- Descending order on purchase dates (`ORDER BY purchase_date DESC`),
realised as a stable insertion sort. -/
def laterFirst (a b : PurchaseEvent) : Prop := b.purchase_date ≤ a.purchase_date

instance : DecidableRel laterFirst := fun a b => inferInstanceAs (Decidable (_ ≤ _))

instance : IsTotal PurchaseEvent laterFirst := ⟨fun a b => le_total b.purchase_date a.purchase_date⟩

instance : IsTrans PurchaseEvent laterFirst := ⟨fun _ _ _ h₁ h₂ => le_trans h₂ h₁⟩

/-- `crud.get_purchase_history`: events of a product, most recent first,
truncated to `limit`. -/
def get_purchase_history (s : DB) (product_id : String) (limit : ℕ) :
    List PurchaseEvent :=
  (List.insertionSort laterFirst
    (s.history.filter (fun ev => ev.product_id == product_id))).take limit

/-- Day gaps between consecutive entries of a most-recent-first event list:
`(history[i-1].purchase_date - history[i].purchase_date).days`. -/
def dayGaps : List PurchaseEvent → List ℤ
  | a :: b :: rest => (a.purchase_date - b.purchase_date) :: dayGaps (b :: rest)
  | _ => []

/-- The average-interval recomputation of `crud.record_purchase`
(lines 138-148): with at least two events in the 10-most-recent window, the
new value is the arithmetic mean of the positive day gaps; when there is no
positive gap (or fewer than two events) the old value is kept. -/
def windowAverage (window : List PurchaseEvent) (old : Option ℚ) : Option ℚ :=
  if window.length ≥ 2 then
    let intervals := (dayGaps window).filter (fun d => decide (0 < d))
    if intervals.isEmpty then old
    else some ((intervals.sum : ℚ) / (intervals.length : ℚ))
  else old

/-- The typical-price update of `crud.record_purchase` (lines 131-136):
only a truthy price is folded in, with `0.7 * old + 0.3 * new` smoothing when
a truthy previous value exists, else direct replacement. -/
def typicalPriceUpdate (old : Option ℚ) (price : Option ℚ) : Option ℚ :=
  match price with
  | some pr =>
    if pr ≠ 0 then
      some (match old with
            | some tp => if tp ≠ 0 then 0.7 * tp + 0.3 * pr else pr
            | none => pr)
    else old
  | none => old

/-- `crud.record_purchase`: appends the event, then (if the product exists)
bumps `purchase_count`, sets `last_purchased_date`, folds the price into
`typical_price`, and recomputes the average interval from the ten most recent
events (the fresh insert included, as the ORM flushes it before the query). -/
def record_purchase (s : DB) (product_id : String) (purchase_date : Day)
    (price : Option ℚ) (quantity : ℚ) (store_name : Option String) : DB :=
  let ev : PurchaseEvent := ⟨product_id, purchase_date, price, quantity, store_name⟩
  let s1 : DB := { s with history := s.history ++ [ev] }
  match get_product s1 product_id with
  | none => s1
  | some _ =>
    let window := get_purchase_history s1 product_id 10
    { s1 with products := s1.products.map (fun p =>
        if p.id == product_id then
          { p with
            purchase_count := p.purchase_count + 1,
            last_purchased_date := some purchase_date,
            typical_price := typicalPriceUpdate p.typical_price price,
            average_days_between_purchases :=
              windowAverage window p.average_days_between_purchases }
        else p) }

/-- The saturating confidence formula that `crud.record_association`'s
increment branch computes: `min(co_purchase_count / 10.0, 1.0)`.  The value
is assigned to the instance attribute `confidence`, which is not a mapped
column, so it is never persisted (the column is `confidence_score`). -/
def assocConfidence (c : ℤ) : ℚ := min ((c : ℚ) / 10) 1

/-- Canonical ordering of an association pair (`crud.record_association`
lines 176-178): the larger id is swapped to second position. -/
def canonicalPair (a b : String) : String × String :=
  if b < a then (b, a) else (a, b)

/-- Body of `record_association` after canonicalisation.  When the edge
exists, only the `co_purchase_count` increment is persisted: the writes to
`confidence` and `last_purchased_together` set non-column attributes, so
`confidence_score` and `last_updated` are untouched.  When the edge is
absent, the constructor call with the keywords `confidence` and
`last_purchased_together` raises `TypeError` (invalid keyword arguments for
the mapped class), nothing is added, and the error propagates — modelled as
`none` with the state unchanged. -/
def recordAssocCanonical (s : DB) (ab : String × String) : Option DB :=
  match s.assocs.find? (fun e => e.product_a_id == ab.1 && e.product_b_id == ab.2) with
  | some _ =>
    some { s with assocs := s.assocs.map (fun e =>
        if e.product_a_id == ab.1 && e.product_b_id == ab.2 then
          { e with co_purchase_count := e.co_purchase_count + 1 }
        else e) }
  | none => none

/-- `crud.record_association`: `some` is a completed call, `none` a raised
`TypeError` that leaves the store unchanged. -/
def record_association (s : DB) (product_a_id product_b_id : String) : Option DB :=
  recordAssocCanonical s (canonicalPair product_a_id product_b_id)

/-- One row of the result `get_associated_products` would assemble. -/
structure AssocEntry where
  product : Product
  confidence : ℚ
  co_purchase_count : ℤ
deriving Repr, DecidableEq

/-- `crud.get_associated_products`: building the query accesses
`ProductAssociation.confidence` (crud.py lines 233 and 237), an attribute the
mapped class does not define — `models.py` declares `confidence_score` — so
the call raises `AttributeError` before the database is touched and never
produces a result, on every input. -/
def get_associated_products (s : DB) (product_id : String)
    (min_confidence : ℚ) (limit : ℕ) : Option (List AssocEntry) := none

/-- One row of the `predict_needed_products` result. -/
structure Prediction where
  product : Product
  confidence : ℚ
  days_since_purchase : ℤ
  expected_days : ℚ
deriving Repr, DecidableEq

/-- Candidate selection of `crud.predict_needed_products`: products with both
statistics present, eligible once `days_since_purchase >= expected_days * 0.8`
(with `expected_days` truthy) and `min(days_since/expected, 1.0)` at least
`min_confidence`. -/
def predictionRows (s : DB) (today : Day) (min_confidence : ℚ) :
    List Prediction :=
  s.products.filterMap (fun p =>
    match p.average_days_between_purchases, p.last_purchased_date with
    | some expected_days, some last =>
      let days_since : ℤ := today - last
      if expected_days ≠ 0 ∧ (expected_days * 0.8 : ℚ) ≤ (days_since : ℚ) then
        let confidence := min ((days_since : ℚ) / expected_days) 1
        if min_confidence ≤ confidence then
          some ⟨p, confidence, days_since, expected_days⟩
        else none
      else none
    | _, _ => none)

/-- Descending confidence order for predictions (`predictions.sort` with
`reverse=True`). -/
def predConfDesc (a b : Prediction) : Prop := b.confidence ≤ a.confidence

instance : DecidableRel predConfDesc := fun a b => inferInstanceAs (Decidable (_ ≤ _))

instance : IsTotal Prediction predConfDesc := ⟨fun a b => le_total b.confidence a.confidence⟩

instance : IsTrans Prediction predConfDesc := ⟨fun _ _ _ h₁ h₂ => le_trans h₂ h₁⟩

/-- `crud.predict_needed_products`.  The `days_ahead` parameter is accepted
but (as in the source) never used. -/
def predict_needed_products (s : DB) (today : Day) (days_ahead : ℤ)
    (min_confidence : ℚ) : List Prediction :=
  List.insertionSort predConfDesc (predictionRows s today min_confidence)

/-! ### The API layer (`api/products.py`) -/

/-- Request body of `POST /products/purchase` exactly as `schemas.py`
declares it (`PurchaseRecordRequest`, lines 102-107): there is no `name`
field. -/
structure PurchaseRecordRequest where
  product_id : String
  purchase_date : Option Day
  price : Option ℚ
  quantity : ℚ
  store_name : Option String
deriving Repr, DecidableEq

/-- Outcome classification of an API call: `ok` for a 2xx response,
`badRequest` for `HTTPException(400)` (InvalidArgument), `notFound` for
`HTTPException(404)` (NotFound), `serverError` for an HTTP 500 (an unhandled
exception or an explicit `HTTPException(500)`). -/
inductive ApiOutcome where
  | ok
  | badRequest
  | notFound
  | serverError
deriving Repr, DecidableEq

/-- `GET /products/{id}` (`products.py`): a missing product yields 404. -/
def api_get_product (s : DB) (product_id : String) : ApiOutcome × Option Product :=
  match get_product s product_id with
  | none => (.notFound, none)
  | some p => (.ok, some p)

/-- `POST /products/purchase` (`products.py`, `record_purchase`).  When the
product id is empty or the sentinel `'unknown'`, the handler reads
`purchase.name` — an attribute the Pydantic request model does not declare —
so it raises `AttributeError` before reaching its `try` block, which FastAPI
surfaces as HTTP 500 with the state unchanged; the 400 branch and the
name-lookup/auto-creation path below it are unreachable.  Any other id is
passed to `crud.record_purchase` unchecked. -/
def api_record_purchase (s : DB) (req : PurchaseRecordRequest) (now : Day) :
    ApiOutcome × DB :=
  if req.product_id == "" || lowerAscii req.product_id == "unknown" then
    (.serverError, s)
  else
    let purchase_date := req.purchase_date.getD now
    (.ok, record_purchase s req.product_id purchase_date req.price req.quantity req.store_name)

/-- `POST /products` (`products.py`, `create_product`): 400 when a product of
the same name already exists, otherwise insert with a fresh id. -/
def api_create_product (s : DB) (name category : String) (typical_price : Option ℚ)
    (now : Day) (fresh_id : String) : ApiOutcome × DB :=
  match get_product_by_name s name with
  | some _ => (.badRequest, s)
  | none => (.ok, create_product s fresh_id name category typical_price now)

/-! ### JSON extraction (`services/gemini_service.py`, `_extract_json`)

The JSON parser itself (`json.loads`, standard library, outside this
repository) is abstracted as a function `loads : String → Option J`: `some`
for a successful parse, `none` when it raises `JSONDecodeError`.  Regular
expressions are realised as concrete scanning functions with `re`'s
leftmost-match, lazy-group semantics, and `\s` as the ASCII whitespace set. -/

def wsChar (c : Char) : Bool :=
  c == ' ' || c == '\t' || c == '\n' || c == '\r' || c == '\x0b' || c == '\x0c'

/-- `str.strip()` on the character list. -/
def stripChars (l : List Char) : List Char :=
  ((l.dropWhile wsChar).reverse.dropWhile wsChar).reverse

/-- `str.strip()`. -/
def pyStrip (s : String) : String := ⟨stripChars s.data⟩

def ticks : List Char := "```".data

def jsonTicks : List Char := "```json".data

def startsTicks (l : List Char) : Bool := ticks.isPrefixOf l

def openBrace : Char := Char.ofNat 123

def closeBrace : Char := Char.ofNat 125

/-- Substitution of the anchored pattern matching a leading fence marker with
an optional `json` tag and trailing inline whitespace. -/
def dropLeadingFence (l : List Char) : List Char :=
  if jsonTicks.isPrefixOf l then (l.drop 7).dropWhile wsChar
  else if ticks.isPrefixOf l then (l.drop 3).dropWhile wsChar
  else l

/-- Substitution of the pattern matching a trailing fence marker together
with the whitespace around it. -/
def dropTrailingFence (l : List Char) : List Char :=
  let r := l.reverse
  let r1 := r.dropWhile wsChar
  if ticks.isPrefixOf r1 then ((r1.drop 3).dropWhile wsChar).reverse else l

/-- Strategy 1 of `_extract_json`: when the (stripped) text starts with a
fence marker, remove the leading and trailing markers and strip again. -/
def cleanFenced (l : List Char) : List Char :=
  if startsTicks l then stripChars (dropTrailingFence (dropLeadingFence l)) else l

/-- Does `rest` continue with optional whitespace and a closing fence? -/
def closesFence (rest : List Char) : Bool :=
  ticks.isPrefixOf (rest.dropWhile wsChar)

/-- Lazy group matching: the shortest body ending at a closing brace that is
followed by whitespace and a closing fence. -/
def lazyBody : List Char → Option (List Char)
  | [] => none
  | c :: rest =>
    if c == closeBrace && closesFence rest then some []
    else match lazyBody rest with
      | some body => some (c :: body)
      | none => none

/-- Try to match the fenced-block pattern at the head of `l`. -/
def tryFenceAt (opener : List Char) (l : List Char) : Option (List Char) :=
  if opener.isPrefixOf l then
    match (l.drop opener.length).dropWhile wsChar with
    | c :: rest =>
      if c == openBrace then
        (lazyBody rest).map (fun b => openBrace :: (b ++ [closeBrace]))
      else none
    | [] => none
  else none

/-- Leftmost search for the fenced-block pattern. -/
def scanFence (opener : List Char) : List Char → Option (List Char)
  | [] => none
  | c :: rest => (tryFenceAt opener (c :: rest)).orElse (fun _ => scanFence opener rest)

/-- Strategy 3 of `_extract_json`: search the original text for a fenced
block (with the `json` tag when `tagged`) and return the braced group. -/
def fencedAttempt (tagged : Bool) (s : String) : Option String :=
  (scanFence (if tagged then jsonTicks else ticks) s.data).map (fun l => ⟨l⟩)

/-- Strategy 4 of `_extract_json`: the span from the first opening brace to
the last closing brace of the original text (requiring `end > start`). -/
def braceSpan (s : String) : Option String :=
  let l := s.data
  match l.findIdx? (· == openBrace), l.reverse.findIdx? (· == closeBrace) with
  | some st, some rIdx =>
    let en := l.length - 1 - rIdx
    if st < en then some ⟨(l.drop st).take (en - st + 1)⟩ else none
  | _, _ => none

/-- `GeminiService._extract_json`: strip, remove a leading fence pair, parse;
then scan for tagged and untagged fenced blocks in the original text; then
fall back to the first-to-last-brace span.  `none` models the empty-dict
result returned after every strategy has failed. -/
def extract_json {J : Type} (loads : String → Option J) (response_text : String) :
    Option J :=
  (loads ⟨cleanFenced (stripChars response_text.data)⟩).orElse fun _ =>
  ((fencedAttempt true response_text).bind loads).orElse fun _ =>
  ((fencedAttempt false response_text).bind loads).orElse fun _ =>
  (braceSpan response_text).bind loads

/-- Spec attempt 1: parse the trimmed raw text directly. -/
def attemptDirect {J : Type} (loads : String → Option J) (t : String) : Option J :=
  loads (pyStrip t)

/-- Spec attempt 2: strip a leading/trailing fence marker pair and parse the
interior. -/
def attemptUnfence {J : Type} (loads : String → Option J) (t : String) : Option J :=
  loads ⟨cleanFenced (stripChars t.data)⟩

/-- Spec attempt 3: scan for any fenced block (tagged, then untagged) in the
text and parse its interior. -/
def attemptFenced {J : Type} (loads : String → Option J) (t : String) : Option J :=
  ((fencedAttempt true t).bind loads).orElse fun _ =>
    (fencedAttempt false t).bind loads

/-- Spec attempt 4: parse the span between the first opening and the last
closing brace. -/
def attemptBraces {J : Type} (loads : String → Option J) (t : String) : Option J :=
  (braceSpan t).bind loads

/-! ### Receipt validation (`_validate_and_build_receipt`) -/

/-- Row of the parsed-receipt schema (`schemas.py`, `ReceiptItem`). -/
structure ReceiptItem where
  name : String
  price : Option ℚ
  qty : ℚ
  confidence : ℚ
deriving Repr, DecidableEq

/-- `schemas.py`, `ParsedReceipt`. -/
structure ParsedReceipt where
  storeName : Option String
  date : Option String
  items : List ReceiptItem
  subtotal : Option ℚ
  tax : Option ℚ
  total : Option ℚ
  parsingConfidence : ℚ
deriving Repr, DecidableEq

/-- A value under a key of the parsed JSON object as the builder sees it:
`absent` — the key is missing; `null` — the key is present and holds JSON
null (Python `None`); `num q` — a present value that `float()` coerces to
`q` (numbers, numeric strings); `bad` — a present value on which `float()`
raises. -/
inductive RawField where
  | absent
  | null
  | num (q : ℚ)
  | bad
deriving Repr, DecidableEq

/-- `float(data[k]) if data.get(k) is not None else None` — the pattern used
for `subtotal`/`tax`/`total` and the item `price`: absent and null both stay
absent (the `is not None` guard), a non-coercible value raises (`none`
result). -/
def coerceGuarded : RawField → Option (Option ℚ)
  | .absent => some none
  | .null => some none
  | .num q => some (some q)
  | .bad => none

/-- `float(data.get(k, default))` — the pattern used for the item `qty`
(default 1.0) and `confidence` (default 0.8) and for `parsingConfidence`
(default 0.7): only an absent key takes the default; a present null reaches
`float(None)`, which raises `TypeError` (`none` result), as does any other
non-coercible value. -/
def coerceDefaulted (dflt : ℚ) : RawField → Option ℚ
  | .absent => some dflt
  | .null => none
  | .num q => some q
  | .bad => none

/-- One entry of `data['items']` as `_validate_and_build_receipt` reads it.
For `name` the code computes `str(item_data.get('name', 'Unknown'))`, which
never raises; `none` here is an absent key (default `"Unknown"`), and a
present value appears already stringified. -/
structure RawItem where
  name : Option String
  price : RawField
  qty : RawField
  confidence : RawField
deriving Repr, DecidableEq

/-- The generic parsed structure handed to `_validate_and_build_receipt`
(`items` is the list under the `items` key, `[]` when the key is absent). -/
structure RawReceipt where
  storeName : Option String
  date : Option String
  items : List RawItem
  subtotal : RawField
  tax : RawField
  total : RawField
  parsingConfidence : RawField
deriving Repr, DecidableEq

/-- Per-item validation: a raised coercion drops the item (`except ...:
continue`); the name defaults to `"Unknown"`, an absent qty to `1.0`, an
absent confidence to `0.8`; an absent or null price stays absent, while a
null qty or confidence raises inside the `try` and drops the item. -/
def buildItem (it : RawItem) : Option ReceiptItem := do
  let priceOpt ← coerceGuarded it.price
  let qty ← coerceDefaulted 1 it.qty
  let conf ← coerceDefaulted 0.8 it.confidence
  pure ⟨it.name.getD "Unknown", priceOpt, qty, conf⟩

/-- `GeminiService._validate_and_build_receipt`: items are validated
individually; the top-level numeric fields are coerced with the `is not
None` guard (absent or null stays absent); `parsingConfidence` is
`float(data.get('parsingConfidence', 0.7))`, so only an absent key defaults
to `0.7` — a present null or non-numeric value raises, which propagates to
the caller (`none` here; `parse_receipt` then substitutes its empty receipt
with confidence 0.0). -/
def validate_and_build_receipt (d : RawReceipt) : Option ParsedReceipt :=
  match coerceGuarded d.subtotal, coerceGuarded d.tax, coerceGuarded d.total,
      coerceDefaulted 0.7 d.parsingConfidence with
  | some subtotal, some tax, some total, some pc =>
    some ⟨d.storeName, d.date, d.items.filterMap buildItem, subtotal, tax, total, pc⟩
  | _, _, _, _ => none

/-- Modelled from the spec: the `calculateConfidence` scoring function of
§4.4 does not exist anywhere under `src/` (the builder takes the reported
`parsingConfidence` instead).  Following the spec's words: a factor `0.9` for
a present store name, `0.9` for a present date, the mean of the per-item
confidences when items exist, and `0.95`/`0.6` according to whether the total
matches the sum of item prices within an absolute tolerance of `1.0`; the
score is the arithmetic mean of the contributed factors, `0.5` when none. -/
def calculateConfidence_spec (r : ParsedReceipt) : ℚ :=
  let factors : List ℚ :=
    (if r.storeName.isSome then [0.9] else []) ++
    (if r.date.isSome then [0.9] else []) ++
    (if r.items.isEmpty then []
     else [((r.items.map (·.confidence)).sum) / (r.items.length : ℚ)]) ++
    (match r.total with
     | some t =>
       [if |t - ((r.items.map (fun i => i.price.getD 0)).sum)| ≤ 1
        then (0.95 : ℚ) else 0.6]
     | none => [])
  if factors.isEmpty then 0.5 else factors.sum / (factors.length : ℚ)

/-! ### Reachable states and the bookkeeping invariant -/

/-- `id` plays no role yet in `s`: this is what a fresh `uuid4` guarantees. -/
def FreshId (s : DB) (id : String) : Prop :=
  (∀ p ∈ s.products, p.id ≠ id) ∧ (∀ ev ∈ s.history, ev.product_id ≠ id)

instance (s : DB) (id : String) : Decidable (FreshId s id) :=
  inferInstanceAs (Decidable (_ ∧ _))

/-- States reachable from the empty database through the operations the
backend exposes (crud- and api-level purchase recording, product creation
and deletion, association recording); auto-generated ids are fresh.  A
`record_association` call contributes a new state only when it completes
(`some`); a raised `TypeError` leaves the state as it was. -/
inductive Reachable : DB → Prop where
  | init : Reachable emptyDB
  | create {s} (id name category : String) (tp : Option ℚ) (now : Day) :
      Reachable s → FreshId s id →
      Reachable (create_product s id name category tp now)
  | purchase {s} (pid : String) (date : Day) (price : Option ℚ) (qty : ℚ)
      (store : Option String) : Reachable s →
      Reachable (record_purchase s pid date price qty store)
  | apiPurchase {s} (req : PurchaseRecordRequest) (now : Day) :
      Reachable s → Reachable (api_record_purchase s req now).2
  | apiCreate {s} (name category : String) (tp : Option ℚ) (now : Day)
      (fid : String) : Reachable s → FreshId s fid →
      Reachable (api_create_product s name category tp now fid).2
  | assoc {s s'} (a b : String) : Reachable s →
      record_association s a b = some s' → Reachable s'
  | del {s} (pid : String) : Reachable s → Reachable (delete_product s pid)

/-- Number of purchase events recorded against a product id. -/
def purchaseCountOf (s : DB) (pid : String) : ℤ :=
  ((s.history.filter (fun ev => ev.product_id == pid)).length : ℤ)

/-- The bookkeeping invariant: every product's counter is non-negative and
counts exactly its purchase events; and the association table is empty —
edge creation always raises `TypeError` (the constructor's `confidence`
keyword is invalid for the mapped class), so no edge is ever inserted. -/
def Inv (s : DB) : Prop :=
  (∀ p ∈ s.products, 0 ≤ p.purchase_count ∧ p.purchase_count = purchaseCountOf s p.id) ∧
  s.assocs = []

theorem inv_empty : Inv emptyDB := by
  refine ⟨?_, rfl⟩
  intro x hx
  simp [emptyDB] at hx

/-- On a state whose association table is empty — every reachable state —
`record_association` always takes the raising create branch. -/
theorem record_association_of_assocs_nil {s : DB} (h : s.assocs = [])
    (a b : String) : record_association s a b = none := by
  unfold record_association recordAssocCanonical
  rw [h]
  rfl

theorem purchaseCountOf_nonneg (s : DB) (pid : String) : 0 ≤ purchaseCountOf s pid := by
  simp [purchaseCountOf]

theorem inv_create {s : DB} (h : Inv s) {id : String} (hf : FreshId s id)
    (name category : String) (tp : Option ℚ) (now : Day) :
    Inv (create_product s id name category tp now) := by
  obtain ⟨hp, ha⟩ := h
  refine ⟨?_, ?_⟩
  · intro p hp'
    simp only [create_product, List.mem_append, List.mem_singleton] at hp'
    rcases hp' with hmem | rfl
    · simpa [purchaseCountOf, create_product] using hp p hmem
    · refine ⟨le_refl 0, ?_⟩
      have : s.history.filter (fun ev => ev.product_id == id) = [] := by
        rw [List.filter_eq_nil_iff]
        intro ev hev
        simpa using hf.2 ev hev
      simp [purchaseCountOf, create_product, this]
  · exact ha

theorem inv_record_purchase {s : DB} (h : Inv s) (pid : String) (date : Day)
    (price : Option ℚ) (qty : ℚ) (store : Option String) :
    Inv (record_purchase s pid date price qty store) := by
  obtain ⟨hp, ha⟩ := h
  simp only [record_purchase]
  cases hfind : get_product { s with history := s.history ++ [⟨pid, date, price, qty, store⟩] } pid with
  | none =>
    simp only [hfind]
    refine ⟨?_, ?_⟩
    · intro p hmem
      have hmem' : p ∈ s.products := hmem
      have hne : p.id ≠ pid := by
        have hx := List.find?_eq_none.mp hfind p hmem'
        intro hcontra
        exact hx (by simp [hcontra])
      obtain ⟨h0, hcount⟩ := hp p hmem'
      refine ⟨h0, ?_⟩
      rw [hcount]
      simp [purchaseCountOf, List.filter_append, Ne.symm hne]
    · exact ha
  | some prod =>
    simp only [hfind]
    refine ⟨?_, ?_⟩
    · intro p hmem
      simp only [List.mem_map] at hmem
      obtain ⟨q, hq, rfl⟩ := hmem
      obtain ⟨h0, hcount⟩ := hp q hq
      by_cases hid : (q.id == pid) = true
      · have hqid : q.id = pid := by simpa using hid
        simp only [hid, if_true]
        constructor
        · exact le_trans h0 (by linarith)
        · rw [show ({ q with
              purchase_count := q.purchase_count + 1,
              last_purchased_date := some date,
              typical_price := typicalPriceUpdate q.typical_price price,
              average_days_between_purchases := windowAverage
                (get_purchase_history { s with
                  history := s.history ++ [⟨pid, date, price, qty, store⟩] } pid 10)
                q.average_days_between_purchases } : Product).id = q.id from rfl]
          rw [hcount, hqid]
          simp [purchaseCountOf, List.filter_append]
      · simp only [hid, if_false]
        refine ⟨h0, ?_⟩
        have hne : pid ≠ q.id := by
          intro hcontra
          exact hid (by simp [hcontra])
        simpa [purchaseCountOf, List.filter_append, hne] using hcount
    · exact ha

theorem inv_delete {s : DB} (h : Inv s) (pid : String) : Inv (delete_product s pid) := by
  obtain ⟨hp, ha⟩ := h
  refine ⟨?_, ?_⟩
  · intro p hmem
    simp only [delete_product, List.mem_filter] at hmem
    simpa [purchaseCountOf, delete_product] using hp p hmem.1
  · exact ha

theorem inv_api_record_purchase {s : DB} (h : Inv s)
    (req : PurchaseRecordRequest) (now : Day) :
    Inv (api_record_purchase s req now).2 := by
  unfold api_record_purchase
  by_cases hsent : (req.product_id == "" || lowerAscii req.product_id == "unknown") = true
  · simp only [hsent, if_true]
    exact h
  · simp only [hsent, if_false]
    exact inv_record_purchase h _ _ _ _ _

theorem inv_api_create_product {s : DB} (h : Inv s) (name category : String)
    (tp : Option ℚ) (now : Day) {fid : String} (hf : FreshId s fid) :
    Inv (api_create_product s name category tp now fid).2 := by
  unfold api_create_product
  cases hlook : get_product_by_name s name with
  | some p => exact h
  | none => exact inv_create h hf _ _ _ _

/-- Every reachable state satisfies the bookkeeping invariant. -/
theorem inv_reachable {s : DB} (h : Reachable s) : Inv s := by
  induction h with
  | init => exact inv_empty
  | create id name category tp now _ hf ih => exact inv_create ih hf name category tp now
  | purchase pid date price qty store _ ih => exact inv_record_purchase ih pid date price qty store
  | apiPurchase req now _ ih => exact inv_api_record_purchase ih req now
  | apiCreate name category tp now fid _ hf ih => exact inv_api_create_product ih name category tp now hf
  | assoc a b _ hsome ih =>
    rw [record_association_of_assocs_nil ih.2 a b] at hsome
    exact Option.noConfusion hsome
  | del pid _ ih => exact inv_delete ih pid

/-! ### Helper lemmas -/

/-- `find?` commutes with a map that does not change the predicate's verdict. -/
theorem find?_map_pred {α : Type} (g : α → α) (q : α → Bool)
    (hg : ∀ x, q (g x) = q x) (l : List α) :
    (l.map g).find? q = (l.find? q).map g := by
  induction l with
  | nil => rfl
  | cons x xs ih =>
    by_cases hx : q x = true
    · simp [List.find?_cons, hg, hx]
    · have hx' : q x = false := by simpa using hx
      simp [List.find?_cons, hg, hx', ih]

/-- Canonicalisation is symmetric in its two arguments. -/
theorem canonicalPair_comm (a b : String) : canonicalPair a b = canonicalPair b a := by
  unfold canonicalPair
  rcases lt_trichotomy a b with h | h | h
  · rw [if_neg (asymm h), if_pos h]
  · subst h
    rfl
  · rw [if_pos h, if_neg (asymm h)]

/-- The stored co-purchase counter of the edge at an (already canonical)
pair, `0` when the edge does not exist. -/
def coCountOf (s : DB) (a b : String) : ℤ :=
  ((s.assocs.find? (fun e => e.product_a_id == a && e.product_b_id == b)).map
    (·.co_purchase_count)).getD 0

/-! ### Claim C2 -/

/-- C2 counterexample: `recordAssociation(X, X)` does not succeed — on the
empty store (where, as in every reachable state, no edge exists) the call
takes the create branch and raises `TypeError`, so the claimed
error-free no-op does not hold. -/
theorem self_association_raises :
    record_association emptyDB "a" "a" = none := by decide

/-- C2 (amended): `recordAssociation(X, X)` leaves the stored edge set
unchanged, but not through a self-pair guard and not successfully: with no
stored `(X, X)` edge — the only situation that can arise, since edge
creation always raises — the call raises `TypeError` and commits nothing;
were a `(X, X)` edge present, the call would complete and increment its
`co_purchase_count` like any other pair, leaving every stored
`confidence_score` untouched. -/
theorem record_association_self_pair (s : DB) (x : String) :
    (s.assocs.find? (fun e => e.product_a_id == x && e.product_b_id == x) = none →
      record_association s x x = none) ∧
    (∀ e0, s.assocs.find? (fun e => e.product_a_id == x && e.product_b_id == x) = some e0 →
      ∃ s', record_association s x x = some s' ∧
        coCountOf s' x x = coCountOf s x x + 1 ∧
        s'.assocs.map (·.confidence_score) = s.assocs.map (·.confidence_score)) := by
  have hcanon : canonicalPair x x = (x, x) := by
    unfold canonicalPair
    rw [if_neg (lt_irrefl x)]
  constructor
  · intro hfind
    unfold record_association
    rw [hcanon]
    simp only [recordAssocCanonical]
    rw [hfind]
  · intro e0 hfind
    unfold record_association
    rw [hcanon]
    simp only [recordAssocCanonical]
    rw [hfind]
    obtain ⟨ha, hb⟩ : e0.product_a_id = x ∧ e0.product_b_id = x := by
      simpa using List.find?_some hfind
    refine ⟨_, rfl, ?_, ?_⟩
    · have hmap := find?_map_pred
        (fun e : ProductAssociation =>
          if e.product_a_id == x && e.product_b_id == x then
            { e with co_purchase_count := e.co_purchase_count + 1 }
          else e)
        (fun e => e.product_a_id == x && e.product_b_id == x)
        (fun e => by by_cases hm : (e.product_a_id == x && e.product_b_id == x) = true <;> simp [hm])
        s.assocs
      simp only [coCountOf]
      rw [hmap, hfind]
      simp [ha, hb]
    · show (s.assocs.map _).map _ = _
      rw [List.map_map]
      apply List.map_congr_left
      intro e he
      simp only [Function.comp_apply]
      split <;> rfl

/-- Witness for the amended C2: the raising branch at the empty store, and
the increment branch at a store holding a pre-existing self-edge. -/
theorem record_association_self_pair_witness :
    record_association emptyDB "b" "b" = none ∧
    (∃ s', record_association (⟨[], [], [⟨"c", "c", 3, 0, 0⟩]⟩ : DB) "c" "c" = some s' ∧
      coCountOf s' "c" "c" = coCountOf (⟨[], [], [⟨"c", "c", 3, 0, 0⟩]⟩ : DB) "c" "c" + 1 ∧
      s'.assocs.map (·.confidence_score) =
        (⟨[], [], [⟨"c", "c", 3, 0, 0⟩]⟩ : DB).assocs.map (·.confidence_score)) :=
  ⟨(record_association_self_pair emptyDB "b").1 (by decide),
   (record_association_self_pair ⟨[], [], [⟨"c", "c", 3, 0, 0⟩]⟩ "c").2
     ⟨"c", "c", 3, 0, 0⟩ (by decide)⟩

/-! ### Claim C3 -/

/-- C3 counterexample: purchases of the same product on days 0, 10 and 14.
After the day-10 purchase the stored average is 10 (as both rules predict),
but after the day-14 purchase (gap Δ = 4 with previous average 10) the code
stores the arithmetic mean `(10 + 4) / 2 = 7`, not the claimed smoothed value
`0.7 * 10 + 0.3 * 4 = 8.2`. -/
theorem average_not_exponential_smoothing :
    (let s1 := create_product emptyDB "p1" "Milk" "Dairy" none 0
     let s2 := record_purchase s1 "p1" 0 none 1 none
     let s3 := record_purchase s2 "p1" 10 none 1 none
     let s4 := record_purchase s3 "p1" 14 none 1 none
     ((get_product s3 "p1").map (·.average_days_between_purchases) = some (some 10)) ∧
     ((get_product s4 "p1").map (·.average_days_between_purchases) = some (some 7)) ∧
     ((0.7 : ℚ) * 10 + 0.3 * 4 ≠ 7)) := by
  refine ⟨?_, ?_, by norm_num⟩ <;>
    norm_num [record_purchase, create_product, get_product, get_purchase_history,
      windowAverage, typicalPriceUpdate, dayGaps, List.insertionSort, List.orderedInsert,
      emptyDB, List.find?, List.filter, laterFirst]

/-- C3 (amended): for a `recordPurchase` call on an existing product, the
resulting `average_days_between_purchases` equals the arithmetic mean of the
positive day gaps between consecutive events among the product's 10 most
recent purchase events (the new event included); when that window has no
positive gap — in particular for a non-positive gap Δ with no other history —
the stored average is left unchanged. -/
theorem record_purchase_average_rule (s : DB) (pid : String) (date : Day)
    (price : Option ℚ) (qty : ℚ) (store : Option String) (p : Product)
    (hfind : get_product s pid = some p) :
    ∃ p', get_product (record_purchase s pid date price qty store) pid = some p' ∧
      p'.average_days_between_purchases =
        windowAverage
          (get_purchase_history
            { s with history := s.history ++ [⟨pid, date, price, qty, store⟩] } pid 10)
          p.average_days_between_purchases := by
  have hfind1 : get_product
      { s with history := s.history ++ [⟨pid, date, price, qty, store⟩] } pid = some p := hfind
  have hfind2 : s.products.find? (fun q => q.id == pid) = some p := hfind
  have hpq : (p.id == pid) = true := by
    simpa using List.find?_some hfind2
  simp only [record_purchase, hfind1]
  have hmap := find?_map_pred
    (fun q : Product =>
      if q.id == pid then
        { q with
          purchase_count := q.purchase_count + 1,
          last_purchased_date := some date,
          typical_price := typicalPriceUpdate q.typical_price price,
          average_days_between_purchases :=
            windowAverage
              (get_purchase_history
                { s with history := s.history ++ [⟨pid, date, price, qty, store⟩] } pid 10)
              q.average_days_between_purchases }
      else q)
    (fun q => q.id == pid)
    (fun q => by by_cases hm : (q.id == pid) = true <;> simp [hm])
    s.products
  refine ⟨{ p with
      purchase_count := p.purchase_count + 1,
      last_purchased_date := some date,
      typical_price := typicalPriceUpdate p.typical_price price,
      average_days_between_purchases :=
        windowAverage
          (get_purchase_history
            { s with history := s.history ++ [⟨pid, date, price, qty, store⟩] } pid 10)
          p.average_days_between_purchases }, ?_, rfl⟩
  show List.find? _ _ = _
  rw [hmap, hfind2, Option.map_some']
  simp [hpq]

/-! ### Claim C10 -/

/-- A price that is `None` or `0.0` never changes the stored typical price. -/
theorem typicalPriceUpdate_untruthy (old : Option ℚ) (price : Option ℚ)
    (h : price = none ∨ price = some 0) : typicalPriceUpdate old price = old := by
  rcases h with rfl | rfl
  · rfl
  · simp [typicalPriceUpdate]

/-- C10: a `recordPurchase` call whose price is `None` or `0.0` leaves every
product's `typical_price` unchanged (the zero price is falsy in the guard
`if price:` and never enters the smoothing update). -/
theorem record_purchase_price_frame (s : DB) (pid : String) (date : Day)
    (price : Option ℚ) (qty : ℚ) (store : Option String)
    (h : price = none ∨ price = some 0) :
    (record_purchase s pid date price qty store).products.map (·.typical_price) =
      s.products.map (·.typical_price) := by
  simp only [record_purchase]
  cases hfind : get_product { s with history := s.history ++ [⟨pid, date, price, qty, store⟩] } pid with
  | none => rfl
  | some prod =>
    simp only [hfind, List.map_map]
    apply List.map_congr_left
    intro q hq
    by_cases hm : (q.id == pid) = true
    · have hqid : q.id = pid := by simpa using hm
      simp [hqid, typicalPriceUpdate_untruthy _ _ h]
    · have hqid : ¬q.id = pid := by simpa using hm
      simp [hqid]

/-- Witness for C10 at a concrete state: a purchase with price `0` leaves the
typical price `5` of the stored product untouched. -/
theorem record_purchase_price_frame_witness :
    (record_purchase (create_product emptyDB "p1" "Milk" "Dairy" (some 5) 0)
        "p1" 3 (some 0) 1 none).products.map (·.typical_price) =
      (create_product emptyDB "p1" "Milk" "Dairy" (some 5) 0).products.map (·.typical_price) :=
  record_purchase_price_frame _ "p1" 3 (some 0) 1 none (Or.inr rfl)

/-- Witness for the amended C3 average rule at a concrete state. -/
theorem record_purchase_average_rule_witness :
    ∃ p', get_product (record_purchase
        (record_purchase (record_purchase (create_product emptyDB "p1" "Milk" "Dairy" none 0)
          "p1" 0 none 1 none) "p1" 10 none 1 none)
        "p1" 14 none 1 none) "p1" = some p' ∧
      p'.average_days_between_purchases =
        windowAverage
          (get_purchase_history
            { (record_purchase (record_purchase (create_product emptyDB "p1" "Milk" "Dairy" none 0)
                "p1" 0 none 1 none) "p1" 10 none 1 none) with
              history := (record_purchase (record_purchase (create_product emptyDB "p1" "Milk" "Dairy" none 0)
                "p1" 0 none 1 none) "p1" 10 none 1 none).history ++ [⟨"p1", 14, none, 1, none⟩] }
            "p1" 10)
          (⟨"p1", "Milk", "Dairy", none, 2, some 10, some 10⟩ : Product).average_days_between_purchases :=
  record_purchase_average_rule _ "p1" 14 none 1 none
    ⟨"p1", "Milk", "Dairy", none, 2, some 10, some 10⟩
    (by norm_num [record_purchase, create_product, get_product, get_purchase_history,
      windowAverage, typicalPriceUpdate, dayGaps, List.insertionSort, List.orderedInsert,
      emptyDB, List.find?, List.filter, laterFirst])

/-! ### Claim C4 -/

/-- C4: in every reachable state, every product's `purchase_count` is
non-negative and equals the number of purchase events recorded against it.
Every creation path goes through `crud.create_product`, which starts the
counter at 0 (the column default 1 in `models.py` is never exercised), and
each recorded purchase against an existing product raises the counter by
exactly 1, which is what the invariant's preservation argument checks. -/
theorem purchase_count_invariant {s : DB} (h : Reachable s) :
    ∀ p ∈ s.products, 0 ≤ p.purchase_count ∧ p.purchase_count = purchaseCountOf s p.id :=
  (inv_reachable h).1

/-- Witness for C4: a concrete reachable state (create then one purchase)
where the stored counter 1 matches the single recorded event. -/
theorem purchase_count_invariant_witness :
    0 ≤ (⟨"A", "Milk", "Dairy", none, 1, some 5, none⟩ : Product).purchase_count ∧
    (⟨"A", "Milk", "Dairy", none, 1, some 5, none⟩ : Product).purchase_count =
      purchaseCountOf
        (record_purchase (create_product emptyDB "A" "Milk" "Dairy" none 0) "A" 5 none 1 none)
        (⟨"A", "Milk", "Dairy", none, 1, some 5, none⟩ : Product).id :=
  purchase_count_invariant
    (Reachable.purchase "A" 5 none 1 none
      (Reachable.create "A" "Milk" "Dairy" none 0 Reachable.init (by decide)))
    ⟨"A", "Milk", "Dairy", none, 1, some 5, none⟩
    (by norm_num [record_purchase, create_product, get_product, get_purchase_history,
      windowAverage, typicalPriceUpdate, dayGaps, List.insertionSort, List.orderedInsert,
      emptyDB, List.find?, List.filter, laterFirst])

/-! ### Claim C6 -/

/-- C6 (code bug): the claimed confidence is never stored.  Evaluating the
code at the failing input — a first co-occurrence, here on the empty store —
takes the create branch, which raises `TypeError` (`confidence` is not a
keyword of the mapped class, whose column is `confidence_score`) and inserts
nothing, so no edge with the claimed initial confidence `0.1` ever exists;
`assocConfidence` is the formula the increment branch computes
(`min(count / 10, 1.0)`, which does equal `0.1` at count 1), but it is
assigned only to a non-column attribute and never persisted. -/
theorem first_cooccurrence_raises :
    record_association emptyDB "a" "b" = none ∧ assocConfidence 1 = 0.1 :=
  ⟨by decide, by norm_num [assocConfidence]⟩

/-! ### Claim C5 -/

/-- C5 counterexample: with two distinct products stored, recording their
association does not update (or create) any edge — the call raises
`TypeError` — and querying the associated products from either endpoint
raises `AttributeError` (the query names the non-existent column
`confidence`) instead of returning the other product. -/
theorem association_roundtrip_crashes :
    record_association
      (create_product (create_product emptyDB "A" "x" "cat" none 0) "B" "y" "cat" none 0)
      "A" "B" = none ∧
    get_associated_products
      (create_product (create_product emptyDB "A" "x" "cat" none 0) "B" "y" "cat" none 0)
      "A" 0.3 10 = none ∧
    get_associated_products
      (create_product (create_product emptyDB "A" "x" "cat" none 0) "B" "y" "cat" none 0)
      "B" 0.3 10 = none :=
  ⟨by decide, rfl, rfl⟩

/-- C5 (amended): the canonicalisation (smaller id first) does make the two
argument orders interchangeable — `recordAssociation(A, B)` and
`recordAssociation(B, A)` are the same operation on every state; in this
revision both raise whenever the canonical edge is absent, which is always
the case, since every reachable state has an empty edge table.
`getAssociated`, however, never returns the other product: building its
query raises `AttributeError` on every input. -/
theorem association_order_irrelevant :
    (∀ (s : DB) (a b : String), record_association s a b = record_association s b a) ∧
    (∀ (s : DB) (pid : String) (θ : ℚ) (lim : ℕ),
      get_associated_products s pid θ lim = none) ∧
    (∀ s : DB, Reachable s → s.assocs = []) := by
  refine ⟨?_, ?_, ?_⟩
  · intro s a b
    unfold record_association
    rw [canonicalPair_comm]
  · intro s pid θ lim
    rfl
  · intro s h
    exact (inv_reachable h).2

/-- Witness for the amended C5 at concrete inputs, including a concrete
reachable state whose edge table is empty. -/
theorem association_order_irrelevant_witness :
    record_association emptyDB "A" "B" = record_association emptyDB "B" "A" ∧
    get_associated_products emptyDB "A" 0.3 10 = none ∧
    (record_purchase (create_product emptyDB "A" "Milk" "Dairy" none 0)
      "A" 5 none 1 none).assocs = [] :=
  ⟨association_order_irrelevant.1 emptyDB "A" "B",
   association_order_irrelevant.2.1 emptyDB "A" 0.3 10,
   association_order_irrelevant.2.2 _
     (Reachable.purchase "A" 5 none 1 none
       (Reachable.create "A" "Milk" "Dairy" none 0 Reachable.init (by decide)))⟩

/-! ### Claim C7 -/

/-- Inversion: every row produced by the prediction candidate scan satisfies
the eligibility conditions and carries the stated confidence. -/
theorem predictionRows_spec {s : DB} {today : Day} {θ : ℚ} {entry : Prediction}
    (h : entry ∈ predictionRows s today θ) :
    entry.product ∈ s.products ∧
    ∃ e d, entry.product.average_days_between_purchases = some e ∧
      entry.product.last_purchased_date = some d ∧ e ≠ 0 ∧
      e * 0.8 ≤ ((today - d : ℤ) : ℚ) ∧
      θ ≤ min (((today - d : ℤ) : ℚ) / e) 1 ∧
      entry.confidence = min (((today - d : ℤ) : ℚ) / e) 1 ∧
      entry.days_since_purchase = today - d ∧ entry.expected_days = e := by
  simp only [predictionRows, List.mem_filterMap] at h
  obtain ⟨q, hq, hfq⟩ := h
  cases hqa : q.average_days_between_purchases with
  | none => rw [hqa] at hfq; exact absurd hfq (by simp)
  | some e' =>
    cases hql : q.last_purchased_date with
    | none => rw [hqa, hql] at hfq; exact absurd hfq (by simp)
    | some d' =>
      rw [hqa, hql] at hfq
      simp only [] at hfq
      by_cases h1 : e' ≠ 0 ∧ (e' * 0.8 : ℚ) ≤ ((today - d' : ℤ) : ℚ)
      · rw [if_pos h1] at hfq
        by_cases h2 : θ ≤ min (((today - d' : ℤ) : ℚ) / e') 1
        · rw [if_pos h2] at hfq
          obtain rfl := Option.some.inj hfq
          exact ⟨hq, e', d', hqa, hql, h1.1, h1.2, h2, rfl, rfl, rfl⟩
        · rw [if_neg h2] at hfq; exact absurd hfq (by simp)
      · rw [if_neg h1] at hfq; exact absurd hfq (by simp)

/-- Introduction: a product meeting the eligibility conditions contributes
its row to the prediction candidate scan. -/
theorem predictionRows_mem {s : DB} {today : Day} {θ : ℚ} {p : Product}
    {e : ℚ} {d : Day} (hp : p ∈ s.products)
    (havg : p.average_days_between_purchases = some e)
    (hlast : p.last_purchased_date = some d) (hne : e ≠ 0)
    (h1 : e * 0.8 ≤ ((today - d : ℤ) : ℚ))
    (h2 : θ ≤ min (((today - d : ℤ) : ℚ) / e) 1) :
    (⟨p, min (((today - d : ℤ) : ℚ) / e) 1, today - d, e⟩ : Prediction) ∈
      predictionRows s today θ := by
  simp only [predictionRows, List.mem_filterMap]
  refine ⟨p, hp, ?_⟩
  rw [havg, hlast]
  simp only []
  rw [if_pos ⟨hne, h1⟩, if_pos h2]

/-- C7: a product with non-null statistics (`expectedDays = e > 0`,
`last_purchased_date = d`) appears in `predictNeeded` exactly when
`daysSince ≥ 0.8 * e` and `min(daysSince / e, 1) ≥ minConfidence`; its
reported confidence is `min(daysSince / e, 1)`; and the output is sorted by
confidence descending. -/
theorem prediction_rule (s : DB) (today : Day) (days_ahead : ℤ) (θ : ℚ)
    (p : Product) (e : ℚ) (d : Day) (hp : p ∈ s.products)
    (havg : p.average_days_between_purchases = some e)
    (hlast : p.last_purchased_date = some d) (hpos : 0 < e) :
    ((∃ entry ∈ predict_needed_products s today days_ahead θ, entry.product = p) ↔
      (e * 0.8 ≤ ((today - d : ℤ) : ℚ) ∧ θ ≤ min (((today - d : ℤ) : ℚ) / e) 1)) ∧
    (∀ entry ∈ predict_needed_products s today days_ahead θ, entry.product = p →
      entry.confidence = min (((today - d : ℤ) : ℚ) / e) 1) ∧
    (predict_needed_products s today days_ahead θ).Sorted predConfDesc := by
  have hmemiff : ∀ entry : Prediction,
      entry ∈ predict_needed_products s today days_ahead θ ↔
      entry ∈ predictionRows s today θ := fun entry =>
    (List.perm_insertionSort predConfDesc (predictionRows s today θ)).mem_iff
  refine ⟨⟨?_, ?_⟩, ?_, ?_⟩
  · rintro ⟨entry, hmem, hep⟩
    obtain ⟨-, e', d', havg', hlast', -, h1, h2, -, -, -⟩ :=
      predictionRows_spec ((hmemiff entry).mp hmem)
    rw [hep] at havg' hlast'
    rw [havg] at havg'
    rw [hlast] at hlast'
    obtain rfl := Option.some.inj havg'
    obtain rfl := Option.some.inj hlast'
    exact ⟨h1, h2⟩
  · rintro ⟨h1, h2⟩
    refine ⟨⟨p, min (((today - d : ℤ) : ℚ) / e) 1, today - d, e⟩, ?_, rfl⟩
    exact (hmemiff _).mpr (predictionRows_mem hp havg hlast (ne_of_gt hpos) h1 h2)
  · intro entry hmem hep
    obtain ⟨-, e', d', havg', hlast', -, -, -, hconf, -, -⟩ :=
      predictionRows_spec ((hmemiff entry).mp hmem)
    rw [hep] at havg' hlast'
    rw [havg] at havg'
    rw [hlast] at hlast'
    obtain rfl := Option.some.inj havg'
    obtain rfl := Option.some.inj hlast'
    exact hconf
  · exact List.sorted_insertionSort predConfDesc _

/-- Witness for C7, the spec's own example: `expectedDays = 10`, last bought
on day 0; on day 7 the product is excluded (7 < 8), on day 8 it is included
with confidence `0.8` (with the default `minConfidence = 0.5`). -/
theorem prediction_rule_witness :
    (¬∃ entry ∈ predict_needed_products
        { products := [⟨"A", "Milk", "Dairy", none, 3, some 0, some 10⟩],
          history := [], assocs := [] } 7 7 0.5, entry.product =
          (⟨"A", "Milk", "Dairy", none, 3, some 0, some 10⟩ : Product)) ∧
    (∃ entry ∈ predict_needed_products
        { products := [⟨"A", "Milk", "Dairy", none, 3, some 0, some 10⟩],
          history := [], assocs := [] } 8 7 0.5, entry.product =
          (⟨"A", "Milk", "Dairy", none, 3, some 0, some 10⟩ : Product)) ∧
    (∀ entry ∈ predict_needed_products
        { products := [⟨"A", "Milk", "Dairy", none, 3, some 0, some 10⟩],
          history := [], assocs := [] } 8 7 0.5, entry.product =
          (⟨"A", "Milk", "Dairy", none, 3, some 0, some 10⟩ : Product) →
        entry.confidence = 0.8) := by
  have h7 := prediction_rule
    { products := [⟨"A", "Milk", "Dairy", none, 3, some 0, some 10⟩],
      history := [], assocs := [] } 7 7 0.5
    ⟨"A", "Milk", "Dairy", none, 3, some 0, some 10⟩ 10 0
    (by simp) rfl rfl (by norm_num)
  have h8 := prediction_rule
    { products := [⟨"A", "Milk", "Dairy", none, 3, some 0, some 10⟩],
      history := [], assocs := [] } 8 7 0.5
    ⟨"A", "Milk", "Dairy", none, 3, some 0, some 10⟩ 10 0
    (by simp) rfl rfl (by norm_num)
  refine ⟨?_, ?_, ?_⟩
  · intro hcontra
    have := h7.1.mp hcontra
    norm_num at this
  · exact h8.1.mpr (by norm_num)
  · intro entry hmem hep
    have := h8.2.1 entry hmem hep
    rw [this]
    norm_num

/-! ### Claim C1 -/

/-- C1 counterexample: a purchase recorded against a concrete product id that
resolves to no product, with no name supplied.  Contrary to the claim the
call does not fail with NotFound — it succeeds — and the purchase event is
appended to the history. -/
theorem unresolved_ref_purchase_not_notFound :
    ((api_record_purchase emptyDB ⟨"deadbeef", none, none, 1, none⟩ 0).1 = .ok) ∧
    ((api_record_purchase emptyDB ⟨"deadbeef", none, none, 1, none⟩ 0).1 ≠ .notFound) ∧
    ((api_record_purchase emptyDB ⟨"deadbeef", none, none, 1, none⟩ 0).2.history =
      [⟨"deadbeef", 0, none, 1, none⟩]) := by decide

/-- C1 (amended): the purchase-recording endpoint never raises NotFound.  An
empty or `'unknown'` product reference makes the handler read the request
attribute `name`, which the Pydantic schema does not declare, so the call
fails with an `AttributeError` (HTTP 500, not NotFound and not the intended
400) and no purchase event is appended; a concrete reference that does not
resolve is not rejected at all — the call succeeds, the purchase event is
appended anyway, and no product statistics are touched. -/
theorem api_record_purchase_failure_modes (s : DB) (req : PurchaseRecordRequest)
    (now : Day) :
    ((req.product_id == "" || lowerAscii req.product_id == "unknown") = true →
      api_record_purchase s req now = (.serverError, s)) ∧
    ((req.product_id == "" || lowerAscii req.product_id == "unknown") = false →
      get_product s req.product_id = none →
      (api_record_purchase s req now).1 = .ok ∧
      (api_record_purchase s req now).2.history = s.history ++
        [⟨req.product_id, req.purchase_date.getD now, req.price, req.quantity,
          req.store_name⟩] ∧
      (api_record_purchase s req now).2.products = s.products) := by
  constructor
  · intro hsent
    simp [api_record_purchase, hsent]
  · intro hsent hfind
    have hfind1 : get_product
        { s with history := s.history ++
          [⟨req.product_id, req.purchase_date.getD now, req.price, req.quantity,
            req.store_name⟩] } req.product_id = none := hfind
    simp [api_record_purchase, hsent, record_purchase, hfind1]

/-- Witness for the amended C1 at concrete states: the `'unknown'` request
crashes with a 500 and no state change, and a bogus concrete id yields
success with the event appended and products untouched. -/
theorem api_record_purchase_failure_modes_witness :
    (api_record_purchase emptyDB ⟨"unknown", none, none, 1, none⟩ 0 =
      (.serverError, emptyDB)) ∧
    ((api_record_purchase emptyDB ⟨"bogus", none, none, 1, none⟩ 0).1 = .ok ∧
      (api_record_purchase emptyDB ⟨"bogus", none, none, 1, none⟩ 0).2.history =
        emptyDB.history ++ [⟨"bogus", (none : Option Day).getD 0, none, 1, none⟩] ∧
      (api_record_purchase emptyDB ⟨"bogus", none, none, 1, none⟩ 0).2.products =
        emptyDB.products) :=
  ⟨(api_record_purchase_failure_modes emptyDB ⟨"unknown", none, none, 1, none⟩ 0).1
      (by decide),
   (api_record_purchase_failure_modes emptyDB ⟨"bogus", none, none, 1, none⟩ 0).2
      (by decide) (by decide)⟩

/-! ### Claim C8 -/

/-- C8: assuming only that the parser rejects every string that still starts
with a fence marker (true of JSON, where no document starts with a backtick),
`_extract_json` behaves exactly as the four-attempt chain: direct parse of
the trimmed text, parse after stripping a leading/trailing fence pair, parse
of a fenced block found anywhere, parse of the first-to-last-brace span —
each failure is swallowed, the first success is returned with no further
attempts, and the empty result appears exactly when all four attempts fail.
(The embedding is a total function, so no exception can escape.) -/
theorem extract_json_attempt_chain {J : Type} (loads : String → Option J)
    (hloads : ∀ u : String, startsTicks u.data = true → loads u = none)
    (t : String) :
    (extract_json loads t =
      (attemptDirect loads t).orElse fun _ =>
        (attemptUnfence loads t).orElse fun _ =>
          (attemptFenced loads t).orElse fun _ => attemptBraces loads t) ∧
    (∀ v, attemptDirect loads t = some v → extract_json loads t = some v) ∧
    (∀ v, attemptDirect loads t = none → attemptUnfence loads t = some v →
      extract_json loads t = some v) ∧
    (∀ v, attemptDirect loads t = none → attemptUnfence loads t = none →
      attemptFenced loads t = some v → extract_json loads t = some v) ∧
    (∀ v, attemptDirect loads t = none → attemptUnfence loads t = none →
      attemptFenced loads t = none → attemptBraces loads t = some v →
      extract_json loads t = some v) ∧
    (extract_json loads t = none ↔
      (attemptDirect loads t = none ∧ attemptUnfence loads t = none ∧
       attemptFenced loads t = none ∧ attemptBraces loads t = none)) := by
  have hmain : extract_json loads t =
      (attemptDirect loads t).orElse fun _ =>
        (attemptUnfence loads t).orElse fun _ =>
          (attemptFenced loads t).orElse fun _ => attemptBraces loads t := by
    unfold extract_json attemptDirect attemptUnfence attemptFenced attemptBraces
    by_cases h : startsTicks (stripChars t.data) = true
    · rw [show loads (pyStrip t) = none from hloads _ h]
      show _ = ((none : Option J).orElse _)
      rw [show ((none : Option J).orElse
        (fun _ => (loads ⟨cleanFenced (stripChars t.data)⟩).orElse fun _ =>
          (((fencedAttempt true t).bind loads).orElse fun _ =>
            (fencedAttempt false t).bind loads).orElse fun _ =>
              (braceSpan t).bind loads)) = _ from rfl]
      cases hL : loads ⟨cleanFenced (stripChars t.data)⟩ with
      | some v => rfl
      | none =>
        show (((fencedAttempt true t).bind loads).orElse _) = _
        cases hF : (fencedAttempt true t).bind loads <;> rfl
    · have hcf : cleanFenced (stripChars t.data) = stripChars t.data := by
        unfold cleanFenced
        rw [if_neg h]
      have hLAD : loads ⟨cleanFenced (stripChars t.data)⟩ = loads (pyStrip t) := by
        rw [hcf]
        rfl
      rw [hLAD]
      cases hA : loads (pyStrip t) with
      | some v => rfl
      | none =>
        show (((fencedAttempt true t).bind loads).orElse _) = _
        have : ((none : Option J).orElse
            (fun _ => (none : Option J).orElse fun _ =>
              (((fencedAttempt true t).bind loads).orElse fun _ =>
                (fencedAttempt false t).bind loads).orElse fun _ =>
                  (braceSpan t).bind loads)) =
            ((((fencedAttempt true t).bind loads).orElse fun _ =>
                (fencedAttempt false t).bind loads).orElse fun _ =>
                  (braceSpan t).bind loads) := rfl

        rw [this]
        cases hF : (fencedAttempt true t).bind loads <;> rfl
  refine ⟨hmain, ?_, ?_, ?_, ?_, ?_⟩
  · intro v h1
    rw [hmain, h1]
    rfl
  · intro v h1 h2
    rw [hmain, h1, h2]
    rfl
  · intro v h1 h2 h3
    rw [hmain, h1, h2, h3]
    rfl
  · intro v h1 h2 h3 h4
    rw [hmain, h1, h2, h3, h4]
    rfl
  · rw [hmain]
    cases h1 : attemptDirect loads t with
    | some v => simp [show ((some v).orElse fun _ => (attemptUnfence loads t).orElse fun _ =>
        (attemptFenced loads t).orElse fun _ => attemptBraces loads t) = some v from rfl]
    | none =>
      cases h2 : attemptUnfence loads t with
      | some v =>
        constructor
        · intro hcontra
          exact absurd hcontra (by simp [show ((none : Option J).orElse fun _ =>
              (some v).orElse fun _ => (attemptFenced loads t).orElse fun _ =>
                attemptBraces loads t) = some v from rfl])
        · rintro ⟨-, hc, -, -⟩
          exact Option.noConfusion hc
      | none =>
        cases h3 : attemptFenced loads t with
        | some v =>
          constructor
          · intro hcontra
            exact absurd hcontra (by simp [show ((none : Option J).orElse fun _ =>
                (none : Option J).orElse fun _ => (some v).orElse fun _ =>
                  attemptBraces loads t) = some v from rfl])
          · rintro ⟨-, -, hc, -⟩
            exact Option.noConfusion hc
        | none =>
          cases h4 : attemptBraces loads t with
          | some v =>
            constructor
            · intro hcontra
              exact absurd hcontra (by simp [show ((none : Option J).orElse fun _ =>
                  (none : Option J).orElse fun _ => (none : Option J).orElse fun _ =>
                    some v) = some v from rfl])
            · rintro ⟨-, -, -, hc⟩
              exact Option.noConfusion hc
          | none =>
            constructor
            · intro _
              exact ⟨rfl, rfl, rfl, rfl⟩
            · intro _
              rfl

/-- A miniature parser used to instantiate the extraction theorem: accepts
exactly the string `"7"` (which no fence-prefixed string equals). -/
def miniLoads : String → Option ℕ := fun u => if u = "7" then some 7 else none

/-- Witness for C8 at the concrete parser `miniLoads` and input `" 7 "`. -/
theorem extract_json_attempt_chain_witness :
    extract_json miniLoads " 7 " =
      (attemptDirect miniLoads " 7 ").orElse fun _ =>
        (attemptUnfence miniLoads " 7 ").orElse fun _ =>
          (attemptFenced miniLoads " 7 ").orElse fun _ => attemptBraces miniLoads " 7 " :=
  (extract_json_attempt_chain miniLoads
    (fun u h => by
      by_cases hu : u = "7"
      · subst hu
        exact absurd h (by decide)
      · simp [miniLoads, hu])
    " 7 ").1

/-! ### Claim C9 -/

/-- C9 counterexample: a record with a store name and nothing else.  The
spec's `calculateConfidence` would score it `0.9` (mean of the single factor
`0.9`), but the builder reports `0.7`, the default it substitutes for the
absent `parsingConfidence` key — no mean-of-factors computation exists in
the code. -/
theorem parsing_confidence_not_mean_of_factors :
    ((validate_and_build_receipt
        ⟨some "S", none, [], .absent, .absent, .absent, .absent⟩).map
      (·.parsingConfidence) = some 0.7) ∧
    ((validate_and_build_receipt
        ⟨some "S", none, [], .absent, .absent, .absent, .absent⟩).map
      calculateConfidence_spec = some 0.9) ∧
    ((0.7 : ℚ) ≠ 0.9) := by
  refine ⟨rfl, ?_, by norm_num⟩
  show some (calculateConfidence_spec ⟨some "S", none, [], none, none, none, 0.7⟩) = some 0.9
  norm_num [calculateConfidence_spec]

/-- C9 (amended): the builder performs no factor-based scoring; on a
successfully built receipt the reported confidence is exactly
`float(data.get('parsingConfidence', 0.7))` — the record's own value when
the key holds a number, and `0.7` only when the key is absent.  A present
null never yields a built receipt: `float(None)` raises, the builder
propagates the exception, and the caller falls back to its empty receipt
with confidence `0.0`. -/
theorem parsing_confidence_from_record (d : RawReceipt) (r : ParsedReceipt)
    (h : validate_and_build_receipt d = some r) :
    coerceDefaulted 0.7 d.parsingConfidence = some r.parsingConfidence ∧
    d.parsingConfidence ≠ RawField.null := by
  unfold validate_and_build_receipt at h
  cases hs : coerceGuarded d.subtotal with
  | none => rw [hs] at h; exact Option.noConfusion h
  | some subtotal =>
    cases ht : coerceGuarded d.tax with
    | none => rw [hs, ht] at h; exact Option.noConfusion h
    | some tax =>
      cases hto : coerceGuarded d.total with
      | none => rw [hs, ht, hto] at h; exact Option.noConfusion h
      | some total =>
        cases hpc : coerceDefaulted 0.7 d.parsingConfidence with
        | none => rw [hs, ht, hto, hpc] at h; exact Option.noConfusion h
        | some pc =>
          rw [hs, ht, hto, hpc] at h
          obtain rfl := Option.some.inj h
          refine ⟨rfl, ?_⟩
          intro hnull
          rw [hnull] at hpc
          exact Option.noConfusion hpc

/-- Witness for the amended C9: the store-name-only record (absent
`parsingConfidence` key) is built with the default confidence `0.7`. -/
theorem parsing_confidence_from_record_witness :
    (coerceDefaulted 0.7
        (⟨some "S", none, [], .absent, .absent, .absent, .absent⟩ : RawReceipt).parsingConfidence =
      some (⟨some "S", none, [], none, none, none, 0.7⟩ : ParsedReceipt).parsingConfidence) ∧
    (⟨some "S", none, [], .absent, .absent, .absent, .absent⟩ : RawReceipt).parsingConfidence ≠
      RawField.null :=
  parsing_confidence_from_record ⟨some "S", none, [], .absent, .absent, .absent, .absent⟩
    ⟨some "S", none, [], none, none, none, 0.7⟩ rfl

end Predicto
